import Mathlib

/-!
# Verification of the WagoPLC OPC UA client (shallow embedding)

This file embeds the `WagoPLC` class of the repository (src/unnamed/part_000;
src/index.js is an earlier variant of the same class) and proves properties of
the embedded operations.

Modelling conventions:
* Node identifiers are `String`s (the code stringifies them with `toString()`
  before every comparison, and compares with `==`).
* JavaScript runtime values are the inductive `JsVal`; `jsTypeof` mirrors the
  JavaScript `typeof` operator (note `typeof null`, `typeof []` and
  `typeof {}` are all `"object"`).
* JavaScript numbers are modelled as rationals (`ℚ`), with a separate `vNaN`
  constructor for NaN; the claims under study do not depend on binary
  floating-point rounding.
* The OPC UA session is the environment `Session`: `browse` returns the
  reference list of a node, `readDataType` returns the numeric value of the
  DataType attribute (the `.value` of the read Variant), `readData` the value
  of the Value attribute.
* `opcua.coerceNodeId` applied to a numeric id yields a NodeId whose `.value`
  is that number; the code only ever uses the `.value` of the result, so it is
  modelled as the identity on `Nat`.
* Fallible JavaScript evaluation (property access on `undefined`) is modelled
  with `Except JsErr`.
-/

inductive JsErr where
  | typeError
  deriving DecidableEq, Repr

inductive JsVal where
  | vUndefined : JsVal
  | vNull : JsVal
  | vBool : Bool → JsVal
  | vNum : ℚ → JsVal
  | vNaN : JsVal
  | vStr : String → JsVal
  | vObj : List (String × JsVal) → JsVal
  | vArr : List JsVal → JsVal
  deriving Repr

/-- The JavaScript `typeof` operator on modelled values. -/
def jsTypeof : JsVal → String
  | JsVal.vUndefined => "undefined"
  | JsVal.vNull => "object"
  | JsVal.vBool _ => "boolean"
  | JsVal.vNum _ => "number"
  | JsVal.vNaN => "number"
  | JsVal.vStr _ => "string"
  | JsVal.vObj _ => "object"
  | JsVal.vArr _ => "object"

/-- JavaScript truthiness (`ToBoolean`). -/
def jsTruthy : JsVal → Bool
  | JsVal.vUndefined => false
  | JsVal.vNull => false
  | JsVal.vBool b => b
  | JsVal.vNum q => if q = 0 then false else true
  | JsVal.vNaN => false
  | JsVal.vStr s => if s = "" then false else true
  | JsVal.vObj _ => true
  | JsVal.vArr _ => true

/-- The JavaScript prefix `!` operator. -/
def jsNot (v : JsVal) : Bool := !(jsTruthy v)

/-- Numeric value of a digit character. -/
def digitVal (c : Char) : Nat := c.toNat - 48

def natOfDigits (ds : List Char) : Nat := ds.foldl (fun n c => 10 * n + digitVal c) 0

/-- Model of `Number.parseInt` on a plain decimal string: optional sign followed by the
longest digit prefix; NaN when there is no digit.  (Radix prefixes and
leading-whitespace trimming are outside the modelled input set.) -/
def parseIntStr (s : String) : JsVal :=
  let cs := s.toList
  let signAndRest : Bool × List Char :=
    match cs with
    | '-' :: rest => (true, rest)
    | '+' :: rest => (false, rest)
    | _ => (false, cs)
  let ds := signAndRest.2.takeWhile Char.isDigit
  if ds.isEmpty then JsVal.vNaN
  else
    let n : ℚ := (natOfDigits ds : ℚ)
    JsVal.vNum (if signAndRest.1 then -n else n)

/-- Model of `Number.parseFloat` on a plain decimal string: optional sign, digits,
optional `.` and fraction digits — the longest such prefix; NaN when no digit
is read.  (Exponent notation and whitespace trimming are outside the modelled
input set.) -/
def parseFloatStr (s : String) : JsVal :=
  let cs := s.toList
  let signAndRest : Bool × List Char :=
    match cs with
    | '-' :: rest => (true, rest)
    | '+' :: rest => (false, rest)
    | _ => (false, cs)
  let intDs := signAndRest.2.takeWhile Char.isDigit
  let rest := signAndRest.2.dropWhile Char.isDigit
  let fracDs :=
    match rest with
    | '.' :: r => r.takeWhile Char.isDigit
    | _ => []
  if intDs.isEmpty && fracDs.isEmpty then JsVal.vNaN
  else
    let mag : ℚ := (natOfDigits intDs : ℚ) + (natOfDigits fracDs : ℚ) / ((10 : ℚ) ^ fracDs.length)
    JsVal.vNum (if signAndRest.1 then -mag else mag)

/-- Model of `Number.parseFloat` applied to a runtime value (the argument is converted
to a string first; a number converts to its decimal form and parses back to
itself; objects, booleans, `null`, `undefined` stringify to non-numeric text). -/
def parseFloatJs : JsVal → JsVal
  | JsVal.vStr s => parseFloatStr s
  | JsVal.vNum q => JsVal.vNum q
  | _ => JsVal.vNaN

/-- Model of `Number.parseInt` applied to a runtime value; on a number it truncates
toward zero (the number stringifies to decimal form and the digit prefix
before the `.` is read back). -/
def parseIntJs : JsVal → JsVal
  | JsVal.vStr s => parseIntStr s
  | JsVal.vNum q => JsVal.vNum ((Int.tdiv q.num (q.den : Int) : ℤ) : ℚ)
  | _ => JsVal.vNaN

/-- Replace the value of field `k` in place, else append it (the in-place /
append behaviour of JavaScript property assignment on plain objects). -/
def setField : List (String × JsVal) → String → JsVal → List (String × JsVal)
  | [], k, v => [(k, v)]
  | (k0, v0) :: fs, k, v =>
      if k0 = k then (k0, v) :: fs else (k0, v0) :: setField fs k v

/-- Model of `Object.assign(target, source)` restricted to plain-object sources (the
only source shape the write path receives): copies each enumerable field of
the source onto the target. -/
def objAssign (target source : JsVal) : JsVal :=
  match target, source with
  | JsVal.vObj fs, JsVal.vObj gs => JsVal.vObj (gs.foldl (fun acc kv => setField acc kv.1 kv.2) fs)
  | t, _ => t

/-! ## Data model -/

/-- One entry of a `session.browse` result (`browseResult.references[i]`);
the code uses its `nodeId` (as a string key) and stores the whole record in
the cache (field `node`). -/
structure NodeRef where
  nodeId : String
  browseName : String
  deriving DecidableEq, Repr

/-- The external OPC UA session, restricted to the primitives the browsed
operations consume.  `readDataType n` is the numeric `.value` of the Variant
returned by reading the DataType attribute of `n`; `readData n` is the
`.value` of the Variant returned by reading the Value attribute. -/
structure Session where
  browse : String → List NodeRef
  readDataType : String → Nat
  readData : String → JsVal

/-- Model of `opcua.coerceNodeId` on a numeric id: the code only consumes the
`.value` of the resulting NodeId, which is the number itself. -/
def coerceNodeId (n : Nat) : Nat := n

/-- An entry of `itemsAvailable`, exactly the object literal pushed in
`#browseNodeRecursiv` (part_000 lines 419-432): there is no top-level
`browseName` field — the browse name lives at `node.browseName`. -/
structure AvailItem where
  node : NodeRef
  dataTypeId : Nat
  dataType : Nat
  value : JsVal
  deriving Repr

/-- An entry of `itemsToMonitor`, as pushed by `addItemToMonitor`
(part_000 lines 277-285).  `attributeId`, `indexRange` and `dataEncoding`
are pushed as fixed constants and never read back, so they are omitted.
`dataType` is the `.value` of the coerced NodeId (the code compares
`item.dataType.value` against the numeric type codes). -/
structure MonItem where
  nodeId : String
  dataTypeId : Nat
  dataType : Nat
  value : JsVal
  deriving Repr

/-- The mutable fields of the `WagoPLC` class that the verified operations
touch. -/
structure WagoPLC where
  itemsAvailable : List AvailItem
  itemsToMonitor : List MonItem
  currentBrowsing : Bool
  deriving Repr

/-- Method `FindMonitoredItem(who)` (part_000 lines 181-187): first entry of
`itemsToMonitor` whose `nodeId` equals `who.toString()`; `undefined`
(here `none`) when there is none.  Note it can never produce `false`. -/
def FindMonitoredItem (mon : List MonItem) (who : String) : Option MonItem :=
  match mon with
  | [] => none
  | it :: rest => if it.nodeId = who then some it else FindMonitoredItem rest who

/-- Method `FindAvailableItemIndex(who)` (part_000 lines 174-179): index of the first
entry of `itemsAvailable` with `item.node.nodeId == who`; the JavaScript
`findIndex` returns `-1` (here `none`) when there is none. -/
def FindAvailableItemIndex (items : List AvailItem) (who : String) : Option Nat :=
  match items with
  | [] => none
  | it :: rest =>
      if it.node.nodeId = who then some 0
      else (FindAvailableItemIndex rest who).map (· + 1)

/-! ## Write path -/

inductive WireType where
  | Boolean | ExtensionObject | Float | Int16 | Int32 | Int64
  deriving DecidableEq, Repr

/-- The value placed in the written Variant: either a plain value or the
extension object built by `session.constructExtensionObject` from the merged
fields. -/
inductive WriteVal where
  | plain : JsVal → WriteVal
  | extObj : JsVal → WriteVal
  deriving Repr

/-- Result of `writeData` (part_000 lines 198-259):
* `noItem`: the guard `item === false || item === undefined` returned early
  (nothing sent);
* `unsupported`: the `default` branch of the `switch` emitted
  "Write : Unknown data type" and returned `false` (nothing sent);
* `write v t`: `session.write` was called with a Variant holding value `v`
  and dataType `t` (`none` models a `null` WriteDataType). -/
inductive WriteResult where
  | noItem
  | unsupported
  | write : WriteVal → Option WireType → WriteResult
  deriving Repr

/-- Method `writeData(who, what)` (part_000 lines 198-259).  The `switch` on
`typeof item.value` is rendered as the equivalent chain of equality tests. -/
def writeData (mon : List MonItem) (who : String) (what : JsVal) : WriteResult :=
  match FindMonitoredItem mon who with
  | none => WriteResult.noItem
  | some item =>
    let t := jsTypeof item.value
    if t = "boolean" then
      WriteResult.write (WriteVal.plain what) (some WireType.Boolean)
    else if t = "object" then
      WriteResult.write (WriteVal.extObj (objAssign item.value what)) (some WireType.ExtensionObject)
    else if t = "number" then
      if item.dataType = 10 then
        WriteResult.write (WriteVal.plain (parseFloatJs what)) (some WireType.Float)
      else if item.dataType = 4 then
        WriteResult.write (WriteVal.plain (parseIntJs what)) (some WireType.Int16)
      else if item.dataType = 6 then
        WriteResult.write (WriteVal.plain (parseIntJs what)) (some WireType.Int32)
      else if item.dataType = 8 then
        WriteResult.write (WriteVal.plain (parseIntJs what)) (some WireType.Int64)
      else
        WriteResult.write (WriteVal.plain JsVal.vNull) none
    else
      WriteResult.unsupported

/-- Method `switchBoolValue(who)` (part_000 lines 189-195).  `FindMonitoredItem`
yields `undefined` or an object, never `false`, so the guard
`if(item === false) return;` never fires; when the item is absent the
subsequent `!item.value` reads a property of `undefined` and raises a
TypeError (the async function's promise rejects). -/
def switchBoolValue (mon : List MonItem) (who : String) : Except JsErr WriteResult :=
  match FindMonitoredItem mon who with
  | none => Except.error JsErr.typeError
  | some item => Except.ok (writeData mon who (JsVal.vBool (jsNot item.value)))

/-! ## Monitor registration -/

/-- Method `addItemToMonitor(nodeId, dataTypeId, dataType, values)` with all optional
arguments supplied (the call shape used from `#browseNodeRecursiv`,
part_000 line 437).  Returns the new list and whether the
"Item already monitored" error was emitted (the duplicate report). -/
def addItemToMonitorWith (mon : List MonItem) (nodeId : String)
    (dataTypeId : Nat) (dataType : Nat) (value : JsVal) : List MonItem × Bool :=
  match FindMonitoredItem mon nodeId with
  | some _ => (mon, true)
  | none => (mon ++ [{ nodeId := nodeId, dataTypeId := dataTypeId,
                       dataType := dataType, value := value }], false)

/-- Method `addItemToMonitor(nodeId)` with the optional arguments defaulted
(part_000 lines 262-288): the data type id, coerced NodeId and current value
are read from the session before the push. -/
def addItemToMonitor (env : Session) (mon : List MonItem) (nodeId : String) :
    List MonItem × Bool :=
  addItemToMonitorWith mon nodeId (env.readDataType nodeId)
    (coerceNodeId (env.readDataType nodeId)) (env.readData nodeId)

/-! ## Browse engine -/

/-- The body of one iteration of the reference loop in `#browseNodeRecursiv`
(part_000 lines 410-439), up to but not including the recursive descent:
read type and value of the reference, update the cached item in place when
`FindAvailableItemIndex` finds it, else append it and — only when `monitor`
is set — register it through `addItemToMonitor` with the already-read
arguments. -/
def visitChild (env : Session) (monitor : Bool)
    (st : List AvailItem × List MonItem) (r : NodeRef) :
    List AvailItem × List MonItem :=
  let dataTypeId := env.readDataType r.nodeId
  let dataType := coerceNodeId dataTypeId
  let value := env.readData r.nodeId
  let it : AvailItem := { node := r, dataTypeId := dataTypeId, dataType := dataType, value := value }
  match FindAvailableItemIndex st.1 r.nodeId with
  | some i => (st.1.set i it, st.2)
  | none =>
      if monitor then
        (st.1 ++ [it], (addItemToMonitorWith st.2 r.nodeId dataTypeId dataType value).1)
      else
        (st.1 ++ [it], st.2)

/-- Method `#browseNodeRecursiv(nodeId, level, monitor)` (part_000 lines 404-442),
with explicit fuel in place of the unbounded JavaScript recursion (`none`
models the traversal not terminating within `fuel` nesting levels).  For each
reference the cache upsert (and possible registration) happens first, then
the recursive descent — which passes only `(nodeId, level+1)`, so `monitor`
falls back to its default `false` below the first level. -/
def browseNodeRecursiv (env : Session) :
    Nat → String → Bool → List AvailItem × List MonItem →
    Option (List AvailItem × List MonItem)
  | 0, _, _, _ => none
  | fuel + 1, nodeId, monitor, st =>
      (env.browse nodeId).foldlM
        (fun acc r => browseNodeRecursiv env fuel r.nodeId false (visitChild env monitor acc r))
        st

/-- The reference loop of `#browseNodeRecursiv`, written as explicit list
recursion (proved below to agree with the `foldlM` form). -/
def browseChildren (env : Session) (fuel : Nat) (monitor : Bool) :
    List NodeRef → List AvailItem × List MonItem →
    Option (List AvailItem × List MonItem)
  | [], st => some st
  | r :: rest, st =>
      match browseNodeRecursiv env fuel r.nodeId false (visitChild env monitor st r) with
      | none => none
      | some st2 => browseChildren env fuel monitor rest st2

theorem browseNodeRecursiv_succ (env : Session) (fuel : Nat) (nodeId : String)
    (monitor : Bool) (st : List AvailItem × List MonItem) :
    browseNodeRecursiv env (fuel + 1) nodeId monitor st =
      browseChildren env fuel monitor (env.browse nodeId) st := by
  show List.foldlM _ _ _ = _
  generalize env.browse nodeId = rs
  induction rs generalizing st with
  | nil => rfl
  | cons r rest ih =>
      simp only [List.foldlM, browseChildren]
      cases browseNodeRecursiv env fuel r.nodeId false (visitChild env monitor st r) with
      | none => rfl
      | some st2 => exact ih st2

/-- Method `browse(rootNode, monitor)` (part_000 lines 394-402).  Note: the method
does not consult `currentBrowsing` before starting; on completion it writes
the cache file (external, not modelled) and clears the flag. -/
def browse (env : Session) (fuel : Nat) (st : WagoPLC) (rootNode : String)
    (monitor : Bool) : Option WagoPLC :=
  match browseNodeRecursiv env fuel rootNode monitor (st.itemsAvailable, st.itemsToMonitor) with
  | none => none
  | some (a, m) => some { itemsAvailable := a, itemsToMonitor := m, currentBrowsing := false }

/-- The sequence of references visited by `#browseNodeRecursiv` in visit
order (each reference followed by the references of its subtree).  The
traversal order depends only on the session, never on the client state. -/
def visitList (env : Session) : Nat → String → Option (List NodeRef)
  | 0, _ => none
  | fuel + 1, nodeId =>
      (env.browse nodeId).foldlM
        (fun acc r => (visitList env fuel r.nodeId).map (fun l => acc ++ r :: l))
        []

/-- Visit sequence of a list of sibling references (explicit recursion form
of the `visitList` fold). -/
def visitKids (env : Session) (fuel : Nat) : List NodeRef → Option (List NodeRef)
  | [] => some []
  | r :: rest =>
      match visitList env fuel r.nodeId with
      | none => none
      | some l =>
          match visitKids env fuel rest with
          | none => none
          | some k => some (r :: (l ++ k))

theorem visitList_succ (env : Session) (fuel : Nat) (nodeId : String) :
    visitList env (fuel + 1) nodeId =
      visitKids env fuel (env.browse nodeId) := by
  show List.foldlM _ _ _ = _
  generalize env.browse nodeId = rs
  suffices h : ∀ acc : List NodeRef,
      List.foldlM (fun acc r => (visitList env fuel r.nodeId).map (fun l => acc ++ r :: l)) acc rs
        = (visitKids env fuel rs).map (fun k => acc ++ k) by
    have := h []
    simpa using this
  induction rs with
  | nil => intro acc; simp [visitKids, List.foldlM]
  | cons r rest ih =>
      intro acc
      simp only [List.foldlM, visitKids]
      cases visitList env fuel r.nodeId with
      | none => rfl
      | some l =>
          simp only [Option.map_some]
          show List.foldlM _ _ _ = _
          rw [ih (acc ++ r :: l)]
          cases visitKids env fuel rest with
          | none => rfl
          | some k => simp

/-! ## Cache upsert machinery -/

/-- The item record built for a visited reference (part_000 lines 412-414 and
419-432): the reference itself plus the freshly read type and value. -/
def mkAvailItem (env : Session) (r : NodeRef) : AvailItem :=
  { node := r,
    dataTypeId := env.readDataType r.nodeId,
    dataType := coerceNodeId (env.readDataType r.nodeId),
    value := env.readData r.nodeId }

/-- The cache mutation of one loop iteration (part_000 lines 416-432):
update in place at the found index, else append. -/
def upsertAvailable (items : List AvailItem) (it : AvailItem) : List AvailItem :=
  match FindAvailableItemIndex items it.node.nodeId with
  | some i => items.set i it
  | none => items ++ [it]

/-- nodeIds of the cached items, in cache order. -/
def availIds (items : List AvailItem) : List String :=
  items.map (fun it => it.node.nodeId)

/-- nodeIds of the monitored items, in registration order. -/
def monIds (mon : List MonItem) : List String :=
  mon.map (fun it => it.nodeId)

theorem upsertAvailable_nil (it : AvailItem) : upsertAvailable [] it = [it] := rfl

theorem upsertAvailable_cons (x : AvailItem) (s : List AvailItem) (it : AvailItem) :
    upsertAvailable (x :: s) it =
      if x.node.nodeId = it.node.nodeId then it :: s else x :: upsertAvailable s it := by
  by_cases h : x.node.nodeId = it.node.nodeId
  · simp [upsertAvailable, FindAvailableItemIndex, h]
  · simp only [upsertAvailable, FindAvailableItemIndex, if_neg h]
    cases hfi : FindAvailableItemIndex s it.node.nodeId with
    | none => simp
    | some i => simp [List.set]

theorem visitChild_fst (env : Session) (monitor : Bool)
    (st : List AvailItem × List MonItem) (r : NodeRef) :
    (visitChild env monitor st r).1 = upsertAvailable st.1 (mkAvailItem env r) := by
  simp only [visitChild, upsertAvailable, mkAvailItem]
  cases FindAvailableItemIndex st.1 r.nodeId with
  | none => cases monitor <;> rfl
  | some i => rfl

/-- First cached entry with the given nodeId. -/
def availEntry (items : List AvailItem) (k : String) : Option AvailItem :=
  match items with
  | [] => none
  | it :: rest => if it.node.nodeId = k then some it else availEntry rest k

theorem availEntry_upsert_self (s : List AvailItem) (it : AvailItem) :
    availEntry (upsertAvailable s it) it.node.nodeId = some it := by
  induction s with
  | nil => simp [upsertAvailable_nil, availEntry]
  | cons x rest ih =>
      rw [upsertAvailable_cons]
      by_cases h : x.node.nodeId = it.node.nodeId
      · simp [h, availEntry]
      · simp [h, availEntry, ih]

theorem availEntry_upsert_other (s : List AvailItem) (it : AvailItem) (k : String)
    (hk : k ≠ it.node.nodeId) :
    availEntry (upsertAvailable s it) k = availEntry s k := by
  have hk2 : ¬ it.node.nodeId = k := fun h => hk h.symm
  induction s with
  | nil => simp [upsertAvailable_nil, availEntry, hk2]
  | cons x rest ih =>
      rw [upsertAvailable_cons]
      by_cases h : x.node.nodeId = it.node.nodeId
      · rw [if_pos h]
        simp only [availEntry]
        rw [if_neg hk2, if_neg (show ¬ x.node.nodeId = k from h ▸ hk2)]
      · rw [if_neg h]
        simp only [availEntry]
        by_cases hxk : x.node.nodeId = k
        · rw [if_pos hxk, if_pos hxk]
        · rw [if_neg hxk, if_neg hxk, ih]

theorem upsertAvailable_absorb (s : List AvailItem) (it : AvailItem)
    (h : availEntry s it.node.nodeId = some it) :
    upsertAvailable s it = s := by
  induction s with
  | nil => simp [availEntry] at h
  | cons x rest ih =>
      rw [upsertAvailable_cons]
      by_cases hx : x.node.nodeId = it.node.nodeId
      · simp only [availEntry, if_pos hx] at h
        simp [hx, Option.some_inj.mp h]
      · simp only [availEntry, if_neg hx] at h
        simp [hx, ih h]

/-- Folding a list of upserts, in order. -/
def upsertAll (s : List AvailItem) (l : List AvailItem) : List AvailItem :=
  l.foldl upsertAvailable s

theorem upsertAll_nil (s : List AvailItem) : upsertAll s [] = s := rfl

theorem upsertAll_cons (s : List AvailItem) (x : AvailItem) (l : List AvailItem) :
    upsertAll s (x :: l) = upsertAll (upsertAvailable s x) l := rfl

theorem upsertAll_append (s : List AvailItem) (l1 l2 : List AvailItem) :
    upsertAll s (l1 ++ l2) = upsertAll (upsertAll s l1) l2 := by
  simp [upsertAll, List.foldl_append]

theorem availEntry_upsertAll_of_not_mem (s : List AvailItem) (l : List AvailItem) (k : String)
    (h : ∀ y ∈ l, y.node.nodeId ≠ k) :
    availEntry (upsertAll s l) k = availEntry s k := by
  induction l generalizing s with
  | nil => rfl
  | cons x rest ih =>
      rw [upsertAll_cons, ih _ (fun y hy => h y (List.mem_cons_of_mem _ hy)),
        availEntry_upsert_other s x k (fun hk => h x (List.mem_cons_self _ _) hk.symm)]

theorem availEntry_upsertAll_of_mem (s : List AvailItem) (l : List AvailItem) (x : AvailItem)
    (hx : x ∈ l) (hkd : ∀ y ∈ l, y.node.nodeId = x.node.nodeId → y = x) :
    availEntry (upsertAll s l) x.node.nodeId = some x := by
  induction l generalizing s with
  | nil => cases hx
  | cons z rest ih =>
      rw [upsertAll_cons]
      by_cases hmem : x ∈ rest
      · exact ih _ hmem (fun y hy => hkd y (List.mem_cons_of_mem _ hy))
      · have hzx : z = x := by
          rcases List.mem_cons.mp hx with h | h
          · exact h.symm
          · exact absurd h hmem
        have hrest : ∀ y ∈ rest, y.node.nodeId ≠ x.node.nodeId := by
          intro y hy hyk
          exact hmem ((hkd y (List.mem_cons_of_mem _ hy) hyk) ▸ hy)
        rw [availEntry_upsertAll_of_not_mem _ _ _ hrest, hzx, availEntry_upsert_self]

theorem upsertAll_absorbed (l : List AvailItem) (t : List AvailItem)
    (h : ∀ x ∈ l, availEntry t x.node.nodeId = some x) :
    upsertAll t l = t := by
  induction l with
  | nil => rfl
  | cons x rest ih =>
      rw [upsertAll_cons, upsertAvailable_absorb t x (h x (List.mem_cons_self _ _))]
      exact ih (fun y hy => h y (List.mem_cons_of_mem _ hy))

/-- Re-applying an identical sequence of upserts whose items are determined
by their nodeId leaves the cache unchanged. -/
theorem upsertAll_idem (s : List AvailItem) (l : List AvailItem)
    (hkd : ∀ y ∈ l, ∀ z ∈ l, y.node.nodeId = z.node.nodeId → y = z) :
    upsertAll (upsertAll s l) l = upsertAll s l := by
  refine upsertAll_absorbed l (upsertAll s l) (fun x hx => ?_)
  exact availEntry_upsertAll_of_mem s l x hx (fun y hy hyk => hkd y hy x hx hyk)

/-! ## Factoring the traversal: cache component -/

theorem browseChildren_factor (env : Session) (fuel : Nat) (monitor : Bool)
    (hrec : ∀ n st st2, browseNodeRecursiv env fuel n false st = some st2 →
      ∃ L, visitList env fuel n = some L ∧
        st2.1 = upsertAll st.1 (L.map (mkAvailItem env))) :
    ∀ rs st st2, browseChildren env fuel monitor rs st = some st2 →
      ∃ K, visitKids env fuel rs = some K ∧
        st2.1 = upsertAll st.1 (K.map (mkAvailItem env)) := by
  intro rs
  induction rs with
  | nil =>
      intro st st2 h
      simp only [browseChildren] at h
      exact ⟨[], rfl, by simp [Option.some_inj.mp h, upsertAll_nil]⟩
  | cons r rest ih =>
      intro st st2 h
      simp only [browseChildren] at h
      cases hmid : browseNodeRecursiv env fuel r.nodeId false (visitChild env monitor st r) with
      | none => rw [hmid] at h; cases h
      | some stMid =>
          rw [hmid] at h
          obtain ⟨L, hL, hMid⟩ := hrec _ _ _ hmid
          obtain ⟨K, hK, hFin⟩ := ih _ _ h
          refine ⟨r :: (L ++ K), ?_, ?_⟩
          · simp only [visitKids, hL, hK]
          · rw [hFin, hMid, visitChild_fst]
            show _ = upsertAll st.1 ((r :: (L ++ K)).map (mkAvailItem env))
            simp only [List.map_cons, List.map_append]
            rw [upsertAll_cons, upsertAll_append]

theorem browseNodeRecursiv_factor (env : Session) :
    ∀ fuel n monitor st st2, browseNodeRecursiv env fuel n monitor st = some st2 →
      ∃ L, visitList env fuel n = some L ∧
        st2.1 = upsertAll st.1 (L.map (mkAvailItem env)) := by
  intro fuel
  induction fuel with
  | zero =>
      intro n monitor st st2 h
      simp only [browseNodeRecursiv] at h
      exact Option.noConfusion h
  | succ f ih =>
      intro n monitor st st2 h
      rw [browseNodeRecursiv_succ] at h
      rw [visitList_succ]
      exact browseChildren_factor env f monitor
        (fun n2 stA stB hAB => ih n2 false stA stB hAB) (env.browse n) st st2 h

/-! ## Membership lemmas for find and ids -/

theorem FindMonitoredItem_eq_none (mon : List MonItem) (who : String) :
    FindMonitoredItem mon who = none ↔ who ∉ monIds mon := by
  induction mon with
  | nil => simp [FindMonitoredItem, monIds]
  | cons it rest ih =>
      by_cases h : it.nodeId = who
      · simp [FindMonitoredItem, h, monIds]
      · simp only [FindMonitoredItem, if_neg h, monIds, List.map_cons, List.mem_cons]
        rw [ih]
        simp only [monIds]
        constructor
        · intro hn hmem
          rcases hmem with hmem | hmem
          · exact h hmem.symm
          · exact hn hmem
        · intro hn hmem
          exact hn (Or.inr hmem)

theorem FindAvailableItemIndex_eq_none (items : List AvailItem) (who : String) :
    FindAvailableItemIndex items who = none ↔ who ∉ availIds items := by
  induction items with
  | nil => simp [FindAvailableItemIndex, availIds]
  | cons it rest ih =>
      by_cases h : it.node.nodeId = who
      · simp [FindAvailableItemIndex, h, availIds]
      · simp only [FindAvailableItemIndex, if_neg h, availIds, List.map_cons, List.mem_cons]
        constructor
        · intro hn hmem
          rcases hmem with hmem | hmem
          · exact h hmem.symm
          · rcases Option.map_eq_none'.mp hn with hn2
            exact (ih.mp hn2) hmem
        · intro hn
          rw [Option.map_eq_none']
          exact ih.mpr (fun hmem => hn (Or.inr hmem))

theorem mem_availIds_upsert (s : List AvailItem) (it : AvailItem) (x : String)
    (hx : x ∈ availIds s) : x ∈ availIds (upsertAvailable s it) := by
  induction s with
  | nil => simp [availIds] at hx
  | cons y rest ih =>
      rw [upsertAvailable_cons]
      by_cases h : y.node.nodeId = it.node.nodeId
      · rw [if_pos h]
        simp only [availIds, List.map_cons, List.mem_cons] at hx ⊢
        rcases hx with hx | hx
        · exact Or.inl (hx.trans h)
        · exact Or.inr hx
      · rw [if_neg h]
        simp only [availIds, List.map_cons, List.mem_cons] at hx ⊢
        rcases hx with hx | hx
        · exact Or.inl hx
        · exact Or.inr (ih hx)

theorem mem_availIds_upsertAll (s : List AvailItem) (l : List AvailItem) (x : String)
    (hx : x ∈ availIds s) : x ∈ availIds (upsertAll s l) := by
  induction l generalizing s with
  | nil => exact hx
  | cons y rest ih => exact ih _ (mem_availIds_upsert s y x hx)

theorem mem_availIds_browse (env : Session) (fuel : Nat) (n : String) (monitor : Bool)
    (st st2 : List AvailItem × List MonItem)
    (h : browseNodeRecursiv env fuel n monitor st = some st2)
    (x : String) (hx : x ∈ availIds st.1) : x ∈ availIds st2.1 := by
  obtain ⟨L, _, hfac⟩ := browseNodeRecursiv_factor env fuel n monitor st st2 h
  rw [hfac]
  exact mem_availIds_upsertAll _ _ _ hx

/-! ## Monitor-set behaviour of the traversal -/

/-- Below the first level the recursion is entered with `monitor` defaulted to
`false`, and then never registers anything: the monitored set is untouched. -/
theorem browseNodeRecursiv_mon_false (env : Session) :
    ∀ fuel n st st2, browseNodeRecursiv env fuel n false st = some st2 →
      st2.2 = st.2 := by
  intro fuel
  induction fuel with
  | zero =>
      intro n st st2 h
      simp only [browseNodeRecursiv] at h
      exact Option.noConfusion h
  | succ f ih =>
      intro n st st2 h
      rw [browseNodeRecursiv_succ] at h
      generalize hrs : env.browse n = rs at h
      clear hrs
      induction rs generalizing st with
      | nil =>
          simp only [browseChildren] at h
          rw [Option.some_inj.mp h]
      | cons r rest ihr =>
          simp only [browseChildren] at h
          cases hmid : browseNodeRecursiv env f r.nodeId false (visitChild env false st r) with
          | none => rw [hmid] at h; cases h
          | some stMid =>
              rw [hmid] at h
              have h1 : stMid.2 = (visitChild env false st r).2 := ih _ _ _ hmid
              have h2 : (visitChild env false st r).2 = st.2 := by
                simp only [visitChild]
                cases FindAvailableItemIndex st.1 r.nodeId <;> rfl
              rw [ihr _ h, h1, h2]

/-- At the first level (the root's direct children) with `monitor = true`,
the monitored set only grows, and every appended registration is a direct
child of the root that was cached neither before the loop started nor ever
monitored before. -/
theorem browseChildren_mon_true (env : Session) (fuel : Nat) :
    ∀ rs st st2, browseChildren env fuel true rs st = some st2 →
      ∃ ext, st2.2 = st.2 ++ ext ∧
        ∀ it ∈ ext, it.nodeId ∈ rs.map NodeRef.nodeId ∧
          it.nodeId ∉ availIds st.1 ∧ it.nodeId ∉ monIds st.2 := by
  intro rs
  induction rs with
  | nil =>
      intro st st2 h
      simp only [browseChildren] at h
      exact ⟨[], by simp [Option.some_inj.mp h], by simp⟩
  | cons r rest ih =>
      intro st st2 h
      simp only [browseChildren] at h
      cases hmid : browseNodeRecursiv env fuel r.nodeId false (visitChild env true st r) with
      | none => rw [hmid] at h; cases h
      | some stMid =>
          rw [hmid] at h
          -- the subtree descent leaves the monitored set alone and only grows the cache ids
          have hmonMid : stMid.2 = (visitChild env true st r).2 :=
            browseNodeRecursiv_mon_false env fuel _ _ _ hmid
          have hidsMid : ∀ x ∈ availIds (visitChild env true st r).1, x ∈ availIds stMid.1 :=
            fun x hx => mem_availIds_browse env fuel _ false _ _ hmid x hx
          have hidsVisit : ∀ x ∈ availIds st.1, x ∈ availIds (visitChild env true st r).1 := by
            intro x hx
            rw [visitChild_fst]
            exact mem_availIds_upsert _ _ _ hx
          obtain ⟨ext, hext, hprop⟩ := ih _ _ h
          -- case on whether the child was already cached
          cases hidx : FindAvailableItemIndex st.1 r.nodeId with
          | some i =>
              -- update-in-place branch: nothing is registered here
              have hmv : (visitChild env true st r).2 = st.2 := by
                simp only [visitChild, hidx]
              refine ⟨ext, by rw [hext, hmonMid, hmv], fun it hit => ?_⟩
              obtain ⟨h1, h2, h3⟩ := hprop it hit
              refine ⟨List.mem_cons_of_mem _ h1, fun hmem => h2 ?_, ?_⟩
              · exact hidsMid _ (hidsVisit _ hmem)
              · rw [hmonMid, hmv] at h3
                exact h3
          | none =>
              have hnotmem : r.nodeId ∉ availIds st.1 :=
                (FindAvailableItemIndex_eq_none st.1 r.nodeId).mp hidx
              have hmv : (visitChild env true st r).2 =
                  (addItemToMonitorWith st.2 r.nodeId (env.readDataType r.nodeId)
                    (coerceNodeId (env.readDataType r.nodeId)) (env.readData r.nodeId)).1 := by
                simp [visitChild, hidx]
              cases hdup : FindMonitoredItem st.2 r.nodeId with
              | some old =>
                  -- duplicate registration: the monitored set is unchanged
                  have hmv2 : (visitChild env true st r).2 = st.2 := by
                    rw [hmv]; simp only [addItemToMonitorWith, hdup]
                  refine ⟨ext, by rw [hext, hmonMid, hmv2], fun it hit => ?_⟩
                  obtain ⟨h1, h2, h3⟩ := hprop it hit
                  refine ⟨List.mem_cons_of_mem _ h1, fun hmem => h2 ?_, ?_⟩
                  · exact hidsMid _ (hidsVisit _ hmem)
                  · rw [hmonMid, hmv2] at h3
                    exact h3
              | none =>
                  have hnotmon : r.nodeId ∉ monIds st.2 :=
                    (FindMonitoredItem_eq_none st.2 r.nodeId).mp hdup
                  have hmv2 : (visitChild env true st r).2 = st.2 ++
                      [{ nodeId := r.nodeId, dataTypeId := env.readDataType r.nodeId,
                         dataType := coerceNodeId (env.readDataType r.nodeId),
                         value := env.readData r.nodeId }] := by
                    rw [hmv]; simp only [addItemToMonitorWith, hdup]
                  refine ⟨{ nodeId := r.nodeId, dataTypeId := env.readDataType r.nodeId,
                            dataType := coerceNodeId (env.readDataType r.nodeId),
                            value := env.readData r.nodeId } :: ext, ?_, fun it hit => ?_⟩
                  · rw [hext, hmonMid, hmv2, List.append_assoc]
                    rfl
                  · rcases List.mem_cons.mp hit with hit | hit
                    · subst hit
                      exact ⟨List.mem_cons_self _ _, hnotmem, hnotmon⟩
                    · obtain ⟨h1, h2, h3⟩ := hprop it hit
                      refine ⟨List.mem_cons_of_mem _ h1, fun hmem => h2 ?_, fun hmem => h3 ?_⟩
                      · exact hidsMid _ (hidsVisit _ hmem)
                      · rw [hmonMid, hmv2]
                        simp only [monIds, List.map_append, List.mem_append]
                        exact Or.inl hmem

theorem FindMonitoredItem_some_mem (mon : List MonItem) (who : String) (it : MonItem)
    (h : FindMonitoredItem mon who = some it) : who ∈ monIds mon := by
  by_contra hmem
  rw [(FindMonitoredItem_eq_none mon who).mpr hmem] at h
  exact Option.noConfusion h

theorem browseChildren_append (env : Session) (fuel : Nat) (monitor : Bool)
    (xs ys : List NodeRef) (st : List AvailItem × List MonItem) :
    browseChildren env fuel monitor (xs ++ ys) st =
      match browseChildren env fuel monitor xs st with
      | none => none
      | some stA => browseChildren env fuel monitor ys stA := by
  induction xs generalizing st with
  | nil => simp [browseChildren]
  | cons r rest ih =>
      simp only [List.cons_append, browseChildren]
      cases browseNodeRecursiv env fuel r.nodeId false (visitChild env monitor st r) with
      | none => rfl
      | some stMid => exact ih stMid

/-- A direct child of the root that is not yet cached when its loop iteration
starts ends up in the monitored set. -/
theorem browseChildren_registers_new (env : Session) (fuel : Nat)
    (pre : List NodeRef) (r : NodeRef) (post : List NodeRef)
    (st stPre st2 : List AvailItem × List MonItem)
    (hpre : browseChildren env fuel true pre st = some stPre)
    (hall : browseChildren env fuel true (pre ++ r :: post) st = some st2)
    (hnew : r.nodeId ∉ availIds stPre.1) :
    r.nodeId ∈ monIds st2.2 := by
  rw [browseChildren_append, hpre] at hall
  simp only [browseChildren] at hall
  cases hmid : browseNodeRecursiv env fuel r.nodeId false (visitChild env true stPre r) with
  | none => rw [hmid] at hall; cases hall
  | some stMid =>
      rw [hmid] at hall
      have hidx : FindAvailableItemIndex stPre.1 r.nodeId = none :=
        (FindAvailableItemIndex_eq_none _ _).mpr hnew
      have hmon : r.nodeId ∈ monIds (visitChild env true stPre r).2 := by
        have hv : (visitChild env true stPre r).2 =
            (addItemToMonitorWith stPre.2 r.nodeId (env.readDataType r.nodeId)
              (coerceNodeId (env.readDataType r.nodeId)) (env.readData r.nodeId)).1 := by
          simp [visitChild, hidx]
        rw [hv]
        cases hdup : FindMonitoredItem stPre.2 r.nodeId with
        | some old =>
            simp only [addItemToMonitorWith, hdup]
            exact FindMonitoredItem_some_mem _ _ _ hdup
        | none =>
            simp only [addItemToMonitorWith, hdup]
            simp [monIds]
      have hmonMid : r.nodeId ∈ monIds stMid.2 := by
        rw [browseNodeRecursiv_mon_false env fuel _ _ _ hmid]
        exact hmon
      obtain ⟨ext, hext, _⟩ := browseChildren_mon_true env fuel post stMid st2 hall
      rw [hext]
      simp only [monIds, List.map_append, List.mem_append]
      exact Or.inl hmonMid

/-! ## Claim C1 -/

/-- C1 (amended).  During `browse(rootNode, monitor=true)` the monitored set
only grows, every registration added by the traversal is a *direct child* of
the root whose nodeId was neither in the available-items cache nor in the
monitored set before the traversal, and conversely a direct child that is
still uncached when its loop iteration starts does get registered.  Deeper
descendants are never registered, because the recursive call
`this.#browseNodeRecursiv(ref.nodeId, level + 1)` does not forward the
`monitor` flag (it falls back to its default `false`). -/
theorem browse_monitor_scope (env : Session) (fuel : Nat) (st : WagoPLC)
    (root : String) (st2 : WagoPLC)
    (h : browse env fuel st root true = some st2) :
    (∃ ext, st2.itemsToMonitor = st.itemsToMonitor ++ ext ∧
       ∀ it ∈ ext, it.nodeId ∈ (env.browse root).map NodeRef.nodeId ∧
         it.nodeId ∉ availIds st.itemsAvailable ∧
         it.nodeId ∉ monIds st.itemsToMonitor) ∧
    (∀ pre r post stPre,
       env.browse root = pre ++ r :: post →
       browseChildren env (fuel - 1) true pre
         (st.itemsAvailable, st.itemsToMonitor) = some stPre →
       r.nodeId ∉ availIds stPre.1 →
       r.nodeId ∈ monIds st2.itemsToMonitor) := by
  cases fuel with
  | zero =>
      simp only [browse, browseNodeRecursiv] at h
      exact Option.noConfusion h
  | succ f =>
      simp only [browse] at h
      cases hrec : browseNodeRecursiv env (f + 1) root true
          (st.itemsAvailable, st.itemsToMonitor) with
      | none => rw [hrec] at h; cases h
      | some p =>
          rw [hrec] at h
          have hst2 : st2.itemsToMonitor = p.2 := by
            cases p with
            | mk a m => rw [← Option.some_inj.mp h]
          rw [browseNodeRecursiv_succ] at hrec
          constructor
          · obtain ⟨ext, hext, hprop⟩ :=
              browseChildren_mon_true env f (env.browse root) _ _ hrec
            exact ⟨ext, by rw [hst2]; exact hext, hprop⟩
          · intro pre r post stPre hsplit hpre hnew
            rw [hst2, Nat.succ_sub_one] at *
            exact browseChildren_registers_new env f pre r post _ stPre p hpre
              (by rw [← hsplit]; exact hrec) hnew

/-- Session used in the C1 counterexample: `R` has the single child `A`,
`A` has the single child `B`, `B` is a leaf; every node reads as a Boolean
(type code 1). -/
def envC1 : Session :=
  { browse := fun n =>
      if n = "R" then [{ nodeId := "A", browseName := "childA" }]
      else if n = "A" then [{ nodeId := "B", browseName := "childB" }]
      else [],
    readDataType := fun _ => 1,
    readData := fun _ => JsVal.vBool true }

/-- C1 counterexample.  Browsing `R` with `monitor=true` from an empty state
discovers and caches both `A` (depth 1) and `B` (depth 2) — both genuinely
new — yet registers only `A` for monitoring: `B` is discovered by the
recursive call, which runs with `monitor` defaulted to `false`.  This
refutes the claim that every genuinely new node at any depth is registered. -/
theorem browse_monitor_counterexample :
    (browse envC1 3 { itemsAvailable := [], itemsToMonitor := [], currentBrowsing := false }
        "R" true).map (fun st => (availIds st.itemsAvailable, monIds st.itemsToMonitor)) =
      some (["A", "B"], ["A"]) ∧
    "B" ∉ ["A"] := by
  constructor
  · rfl
  · simp

def stC1w : WagoPLC :=
  { itemsAvailable := [], itemsToMonitor := [], currentBrowsing := false }

def stC1w2 : WagoPLC :=
  { itemsAvailable :=
      [{ node := { nodeId := "A", browseName := "childA" },
         dataTypeId := 1, dataType := 1, value := JsVal.vBool true },
       { node := { nodeId := "B", browseName := "childB" },
         dataTypeId := 1, dataType := 1, value := JsVal.vBool true }],
    itemsToMonitor :=
      [{ nodeId := "A", dataTypeId := 1, dataType := 1, value := JsVal.vBool true }],
    currentBrowsing := false }

/-- Witness: `browse_monitor_scope` applied to the concrete session `envC1`
starting from the empty state. -/
theorem browse_monitor_scope_witness :
    (∃ ext, stC1w2.itemsToMonitor = stC1w.itemsToMonitor ++ ext ∧
       ∀ it ∈ ext, it.nodeId ∈ (envC1.browse "R").map NodeRef.nodeId ∧
         it.nodeId ∉ availIds stC1w.itemsAvailable ∧
         it.nodeId ∉ monIds stC1w.itemsToMonitor) ∧
    (∀ pre r post stPre,
       envC1.browse "R" = pre ++ r :: post →
       browseChildren envC1 (3 - 1) true pre
         (stC1w.itemsAvailable, stC1w.itemsToMonitor) = some stPre →
       r.nodeId ∉ availIds stPre.1 →
       r.nodeId ∈ monIds stC1w2.itemsToMonitor) :=
  browse_monitor_scope envC1 3 stC1w "R" stC1w2 (by rfl)

/-! ## Claim C8 -/

/-- C8.  Re-browsing an unchanged root twice yields identical cache contents:
if two consecutive `browse` calls against the same session both complete, the
available-items cache after the second equals the cache after the first —
item count, order and per-item fields included.  `L` is the (state
independent) visit sequence of the traversal; the hypothesis `hkd` expresses
that an unchanged address space reports a node the same way wherever it is
reached from. -/
theorem browse_idempotent (env : Session) (fuel : Nat) (root : String)
    (monitor : Bool) (st0 st1 st2 : WagoPLC) (L : List NodeRef)
    (hL : visitList env fuel root = some L)
    (hkd : ∀ r1 ∈ L, ∀ r2 ∈ L, r1.nodeId = r2.nodeId → r1 = r2)
    (h1 : browse env fuel st0 root monitor = some st1)
    (h2 : browse env fuel st1 root monitor = some st2) :
    st2.itemsAvailable = st1.itemsAvailable := by
  simp only [browse] at h1 h2
  cases hr1 : browseNodeRecursiv env fuel root monitor
      (st0.itemsAvailable, st0.itemsToMonitor) with
  | none => rw [hr1] at h1; cases h1
  | some p1 =>
      rw [hr1] at h1
      cases hr2 : browseNodeRecursiv env fuel root monitor
          (st1.itemsAvailable, st1.itemsToMonitor) with
      | none => rw [hr2] at h2; cases h2
      | some p2 =>
          rw [hr2] at h2
          obtain ⟨L1, hL1, hf1⟩ := browseNodeRecursiv_factor env fuel root monitor _ p1 hr1
          obtain ⟨L2, hL2, hf2⟩ := browseNodeRecursiv_factor env fuel root monitor _ p2 hr2
          have e1 : L1 = L := Option.some_inj.mp (hL1.symm.trans hL)
          have e2 : L2 = L := Option.some_inj.mp (hL2.symm.trans hL)
          have hst1 : st1.itemsAvailable = p1.1 := by
            cases p1 with
            | mk a m => rw [← Option.some_inj.mp h1]
          have hst2 : st2.itemsAvailable = p2.1 := by
            cases p2 with
            | mk a m => rw [← Option.some_inj.mp h2]
          rw [hst2, hf2, hst1, hf1, e1, e2]
          apply upsertAll_idem
          intro y hy z hz hyz
          obtain ⟨ry, hry, hmy⟩ := List.mem_map.mp hy
          obtain ⟨rz, hrz, hmz⟩ := List.mem_map.mp hz
          have hid : ry.nodeId = rz.nodeId := by
            have : y.node.nodeId = ry.nodeId := by rw [← hmy]; rfl
            have h2n : z.node.nodeId = rz.nodeId := by rw [← hmz]; rfl
            rw [← this, ← h2n, hyz]
          rw [← hmy, ← hmz, hkd ry hry rz hrz hid]

/-- Session used for the C8 witness: `R` has two boolean children, both
leaves. -/
def envC8 : Session :=
  { browse := fun n =>
      if n = "R" then
        [{ nodeId := "A", browseName := "childA" },
         { nodeId := "B", browseName := "childB" }]
      else [],
    readDataType := fun _ => 1,
    readData := fun _ => JsVal.vBool false }

def stC8a : WagoPLC :=
  { itemsAvailable :=
      [{ node := { nodeId := "A", browseName := "childA" },
         dataTypeId := 1, dataType := 1, value := JsVal.vBool false },
       { node := { nodeId := "B", browseName := "childB" },
         dataTypeId := 1, dataType := 1, value := JsVal.vBool false }],
    itemsToMonitor := [], currentBrowsing := false }

/-- Witness: `browse_idempotent` applied to the concrete session `envC8`,
browsing twice from the empty state. -/
theorem browse_idempotent_witness : stC8a.itemsAvailable = stC8a.itemsAvailable :=
  browse_idempotent envC8 2 "R" false
    { itemsAvailable := [], itemsToMonitor := [], currentBrowsing := false }
    stC8a stC8a
    [{ nodeId := "A", browseName := "childA" }, { nodeId := "B", browseName := "childB" }]
    (by rfl) (by decide) (by rfl) (by rfl)

/-! ## Claim C2 -/

def envC2 : Session :=
  { browse := fun n =>
      if n = "R" then [{ nodeId := "C", browseName := "childC" }] else [],
    readDataType := fun _ => 1,
    readData := fun _ => JsVal.vBool true }

def stC2busy : WagoPLC :=
  { itemsAvailable := [], itemsToMonitor := [], currentBrowsing := true }

/-- C2 (code bug).  `browse()` never consults `currentBrowsing`: called on a
state whose in-progress flag is set, it does not return Busy — it runs the
traversal, mutates the available-items cache (here appending the newly
discovered node `C`), and then resets the flag to `false`, all on behalf of
the second call. -/
theorem browse_ignores_busy_flag :
    stC2busy.currentBrowsing = true ∧
    browse envC2 2 stC2busy "R" false =
      some { itemsAvailable :=
               [{ node := { nodeId := "C", browseName := "childC" },
                  dataTypeId := 1, dataType := 1, value := JsVal.vBool true }],
             itemsToMonitor := [], currentBrowsing := false } ∧
    ([{ node := { nodeId := "C", browseName := "childC" },
        dataTypeId := 1, dataType := 1, value := JsVal.vBool true }] : List AvailItem)
      ≠ stC2busy.itemsAvailable :=
  ⟨rfl, rfl, List.cons_ne_nil _ _⟩

/-! ## Claim C7 -/

/-- The three relevant states of the cache file: missing, present but not
valid JSON, present with a well-formed item array.  (A well-formed file is
the shape `#writeItemsToCacheFile` produces: the serialized item list.) -/
inductive CacheFile where
  | absent : CacheFile
  | malformed : String → CacheFile
  | wellFormed : List AvailItem → CacheFile

/-- Return value of `getItemsFromCacheFile`: the numeric code 5 (busy), the
numeric code 6 (file not found), or the `itemsAvailable` list returned at the
end of the function. -/
inductive LoadResult where
  | busy : LoadResult
  | notFound : LoadResult
  | loaded : List AvailItem → LoadResult

/-- Method `getItemsFromCacheFile()` (part_000 lines 372-392).  When the file
content is malformed, `JSON.parse` throws *before* the assignment to
`this.itemsAvailable`, the catch block emits the "Error reading cache file"
report (the Boolean component), and the function falls through to
`return this.itemsAvailable` — the cache keeps its previous contents.  On
well-formed content the parsed list replaces the collection wholesale. -/
def getItemsFromCacheFile (st : WagoPLC) (file : CacheFile) :
    WagoPLC × LoadResult × Bool :=
  if st.currentBrowsing then (st, LoadResult.busy, false)
  else
    match file with
    | CacheFile.absent => (st, LoadResult.notFound, false)
    | CacheFile.malformed _ => (st, LoadResult.loaded st.itemsAvailable, true)
    | CacheFile.wellFormed items =>
        ({ st with itemsAvailable := items }, LoadResult.loaded items, false)

def stC7prior : WagoPLC :=
  { itemsAvailable :=
      [{ node := { nodeId := "P", browseName := "prior" },
         dataTypeId := 1, dataType := 1, value := JsVal.vBool true }],
    itemsToMonitor := [], currentBrowsing := false }

/-- C7 counterexample.  With a non-empty in-memory cache and a malformed
cache file, `getItemsFromCacheFile` reports the parse failure but leaves the
previous (non-empty) cache in place — the cache is *not* left empty as the
claim states. -/
theorem getItemsFromCacheFile_counterexample :
    getItemsFromCacheFile stC7prior (CacheFile.malformed "not json") =
      (stC7prior, LoadResult.loaded stC7prior.itemsAvailable, true) ∧
    stC7prior.itemsAvailable ≠ [] :=
  ⟨rfl, List.cons_ne_nil _ _⟩

/-- C7 (amended).  `getItemsFromCacheFile` fails with Busy (code 5) whenever
a browse is in progress; otherwise it fails with NotFound (code 6) when the
cache file is absent; on malformed content it emits the ParseError report and
leaves the in-memory cache *unchanged* (hence never partially populated, but
not necessarily empty), returning the previous contents; and on well-formed
content it replaces the in-memory collection wholesale with the file's
contents, with no merge. -/
theorem getItemsFromCacheFile_behavior (st : WagoPLC) (file : CacheFile) :
    (st.currentBrowsing = true →
       getItemsFromCacheFile st file = (st, LoadResult.busy, false)) ∧
    (st.currentBrowsing = false → file = CacheFile.absent →
       getItemsFromCacheFile st file = (st, LoadResult.notFound, false)) ∧
    (st.currentBrowsing = false → ∀ raw, file = CacheFile.malformed raw →
       getItemsFromCacheFile st file =
         (st, LoadResult.loaded st.itemsAvailable, true)) ∧
    (st.currentBrowsing = false → ∀ items, file = CacheFile.wellFormed items →
       getItemsFromCacheFile st file =
         ({ st with itemsAvailable := items }, LoadResult.loaded items, false)) := by
  refine ⟨fun hb => ?_, fun hb habs => ?_, fun hb raw hmal => ?_, fun hb items hwf => ?_⟩
  · simp [getItemsFromCacheFile, hb]
  · subst habs; simp [getItemsFromCacheFile, hb]
  · subst hmal; simp [getItemsFromCacheFile, hb]
  · subst hwf; simp [getItemsFromCacheFile, hb]

def stC7ok : WagoPLC :=
  { itemsAvailable := [], itemsToMonitor := [], currentBrowsing := false }

/-- Witness: `getItemsFromCacheFile_behavior` applied to a concrete
non-browsing state and a concrete well-formed file. -/
theorem getItemsFromCacheFile_behavior_witness :
    getItemsFromCacheFile stC7ok (CacheFile.wellFormed stC7prior.itemsAvailable) =
      ({ stC7ok with itemsAvailable := stC7prior.itemsAvailable },
        LoadResult.loaded stC7prior.itemsAvailable, false) :=
  (getItemsFromCacheFile_behavior stC7ok
      (CacheFile.wellFormed stC7prior.itemsAvailable)).2.2.2
    rfl stC7prior.itemsAvailable rfl

/-! ## Claim C9 -/

def startsWithChars : List Char → List Char → Bool
  | [], _ => true
  | _ :: _, [] => false
  | n :: ns, h :: hs => if n = h then startsWithChars ns hs else false

def containsChars (needle : List Char) : List Char → Bool
  | [] => needle.isEmpty
  | c :: rest =>
      if startsWithChars needle (c :: rest) then true else containsChars needle rest

/-- Model of `String.prototype.includes`. -/
def strIncludes (hay needle : String) : Bool := containsChars needle.toList hay.toList

/-- The expression `this.itemsAvailable[key].browseName.name` of
`searchItemByNameLike` (part_000 line 447).  Items of `itemsAvailable` carry
the browse name at `node.browseName`, not at a top-level `browseName` field,
so `item.browseName` evaluates to `undefined` and the `.name` access raises a
TypeError. -/
def itemBrowseName (_ : AvailItem) : Except JsErr String :=
  Except.error JsErr.typeError

/-- Method `searchItemByNameLike(name)` (part_000 lines 444-452): iterate over the
cached items, keep those whose (lower-cased) browse name contains the
(lower-cased) search string. -/
def searchItemByNameLike (items : List AvailItem) (name : String) :
    Except JsErr (List AvailItem) :=
  match items with
  | [] => Except.ok []
  | it :: rest =>
      match itemBrowseName it with
      | Except.error e => Except.error e
      | Except.ok bn =>
          match searchItemByNameLike rest name with
          | Except.error e => Except.error e
          | Except.ok acc =>
              Except.ok (if strIncludes bn.toLower name.toLower then it :: acc else acc)

/-- C9 (code bug).  On any cache populated by browsing, `searchItemByNameLike`
raises a TypeError at the first item instead of returning the matching items:
it reads `item.browseName.name` while the items store the browse name at
`item.node.browseName.name`.  Here the single cached item has browse name
"Alpha", the search string is "alp", and the claimed result would be the
one-element match list. -/
theorem searchItemByNameLike_raises :
    searchItemByNameLike
      [{ node := { nodeId := "A", browseName := "Alpha" },
         dataTypeId := 1, dataType := 1, value := JsVal.vBool true }] "alp" =
      Except.error JsErr.typeError :=
  rfl

/-! ## Claim C4 -/

/-- Numeric payload of a modelled value, used to state concrete parse
results. -/
def numOf : JsVal → Option ℚ
  | JsVal.vNum q => some q
  | _ => none

/-- C4.  For a monitored item whose last known value is numeric, `writeData`
coerces the proposed value by the protocol type code: code 10 parses it as a
float and writes wire type Float, code 4 parses it as an integer and writes
Int16, code 6 likewise with Int32, code 8 likewise with Int64; in particular
input "3.14" parses to the float 3.14 and input "5" to the integer 5. -/
theorem writeData_numeric_coercion (mon : List MonItem) (who : String)
    (what : JsVal) (item : MonItem)
    (hfind : FindMonitoredItem mon who = some item)
    (hnum : jsTypeof item.value = "number") :
    (item.dataType = 10 → writeData mon who what =
       WriteResult.write (WriteVal.plain (parseFloatJs what)) (some WireType.Float)) ∧
    (item.dataType = 4 → writeData mon who what =
       WriteResult.write (WriteVal.plain (parseIntJs what)) (some WireType.Int16)) ∧
    (item.dataType = 6 → writeData mon who what =
       WriteResult.write (WriteVal.plain (parseIntJs what)) (some WireType.Int32)) ∧
    (item.dataType = 8 → writeData mon who what =
       WriteResult.write (WriteVal.plain (parseIntJs what)) (some WireType.Int64)) ∧
    numOf (parseFloatJs (JsVal.vStr "3.14")) = some (157 / 50) ∧
    numOf (parseIntJs (JsVal.vStr "5")) = some 5 := by
  refine ⟨fun h10 => ?_, fun h4 => ?_, fun h6 => ?_, fun h8 => ?_, ?_, ?_⟩
  · simp [writeData, hfind, hnum, h10]
  · simp [writeData, hfind, hnum, h4]
  · simp [writeData, hfind, hnum, h6]
  · simp [writeData, hfind, hnum, h8]
  · show (some (((3 : ℕ) : ℚ) + ((14 : ℕ) : ℚ) / (10 : ℚ) ^ 2) : Option ℚ) = some (157 / 50)
    rw [Option.some_inj]
    norm_num
  · show (some (((5 : ℕ) : ℚ)) : Option ℚ) = some 5
    rw [Option.some_inj]
    norm_num

def monC4 : List MonItem :=
  [{ nodeId := "F", dataTypeId := 10, dataType := 10, value := JsVal.vNum 1 }]

/-- Witness: `writeData_numeric_coercion` applied to a concrete monitored
float item (code 10) and the proposed value "3.14". -/
theorem writeData_numeric_coercion_witness :
    ((10 : Nat) = 10 → writeData monC4 "F" (JsVal.vStr "3.14") =
       WriteResult.write (WriteVal.plain (parseFloatJs (JsVal.vStr "3.14")))
         (some WireType.Float)) ∧
    ((10 : Nat) = 4 → writeData monC4 "F" (JsVal.vStr "3.14") =
       WriteResult.write (WriteVal.plain (parseIntJs (JsVal.vStr "3.14")))
         (some WireType.Int16)) ∧
    ((10 : Nat) = 6 → writeData monC4 "F" (JsVal.vStr "3.14") =
       WriteResult.write (WriteVal.plain (parseIntJs (JsVal.vStr "3.14")))
         (some WireType.Int32)) ∧
    ((10 : Nat) = 8 → writeData monC4 "F" (JsVal.vStr "3.14") =
       WriteResult.write (WriteVal.plain (parseIntJs (JsVal.vStr "3.14")))
         (some WireType.Int64)) ∧
    numOf (parseFloatJs (JsVal.vStr "3.14")) = some (157 / 50) ∧
    numOf (parseIntJs (JsVal.vStr "5")) = some 5 :=
  writeData_numeric_coercion monC4 "F" (JsVal.vStr "3.14")
    { nodeId := "F", dataTypeId := 10, dataType := 10, value := JsVal.vNum 1 }
    rfl rfl

/-! ## Claim C3 -/

def monC3 : List MonItem :=
  [{ nodeId := "A", dataTypeId := 20, dataType := 20,
     value := JsVal.vArr [JsVal.vNum 1] }]

/-- C3 counterexample.  An array value has JavaScript `typeof` `"object"`,
so it takes the structured-record branch: `writeData` on an array-valued
monitored item builds an extension object and calls `session.write` — it does
not fail with UnsupportedType and a session write *is* attempted, refuting
the claim's "for example an array value". -/
theorem writeData_array_counterexample :
    writeData monC3 "A" (JsVal.vObj []) =
      WriteResult.write (WriteVal.extObj (JsVal.vArr [JsVal.vNum 1]))
        (some WireType.ExtensionObject) ∧
    writeData monC3 "A" (JsVal.vObj []) ≠ WriteResult.unsupported :=
  ⟨rfl, fun h => WriteResult.noConfusion h⟩

/-- C3 (amended).  For a monitored item whose last known value's runtime
category has no coercion rule — `typeof` none of `"boolean"`, `"object"`,
`"number"`, e.g. a string or `undefined` — `writeData` fails with the
UnsupportedType report ("Write : Unknown data type", returning `false`) and
no session write is attempted.  An array value is *not* such a case: its
`typeof` is `"object"`, so it takes the structured-record path and is
written. -/
theorem writeData_unsupported_category (mon : List MonItem) (who : String)
    (what : JsVal) (item : MonItem)
    (hfind : FindMonitoredItem mon who = some item)
    (hb : jsTypeof item.value ≠ "boolean")
    (ho : jsTypeof item.value ≠ "object")
    (hn : jsTypeof item.value ≠ "number") :
    writeData mon who what = WriteResult.unsupported := by
  simp [writeData, hfind, hb, ho, hn]

def monC3s : List MonItem :=
  [{ nodeId := "S", dataTypeId := 12, dataType := 12, value := JsVal.vStr "txt" }]

/-- Witness: `writeData_unsupported_category` applied to a concrete
string-valued monitored item. -/
theorem writeData_unsupported_category_witness :
    writeData monC3s "S" (JsVal.vStr "x") = WriteResult.unsupported :=
  writeData_unsupported_category monC3s "S" (JsVal.vStr "x")
    { nodeId := "S", dataTypeId := 12, dataType := 12, value := JsVal.vStr "txt" }
    rfl (by decide) (by decide) (by decide)

/-! ## Claim C10 -/

/-- C10.  For a monitored item whose last known value is a number but whose
type code is none of 4, 6, 8, 10, `writeData` does not fail with
UnsupportedType and does not abort: the numeric branch falls through with
both the coerced value and the wire data type still `null`, and
`session.write` is called with a null-valued, null-typed Variant. -/
theorem writeData_numeric_fallthrough (mon : List MonItem) (who : String)
    (what : JsVal) (item : MonItem)
    (hfind : FindMonitoredItem mon who = some item)
    (hnum : jsTypeof item.value = "number")
    (h10 : item.dataType ≠ 10) (h4 : item.dataType ≠ 4)
    (h6 : item.dataType ≠ 6) (h8 : item.dataType ≠ 8) :
    writeData mon who what = WriteResult.write (WriteVal.plain JsVal.vNull) none := by
  simp [writeData, hfind, hnum, h10, h4, h6, h8]

def monC10 : List MonItem :=
  [{ nodeId := "N", dataTypeId := 7, dataType := 7, value := JsVal.vNum 42 }]

/-- Witness: `writeData_numeric_fallthrough` applied to a concrete numeric
item with type code 7 (UInt32, outside the handled set). -/
theorem writeData_numeric_fallthrough_witness :
    writeData monC10 "N" (JsVal.vStr "5") =
      WriteResult.write (WriteVal.plain JsVal.vNull) none :=
  writeData_numeric_fallthrough monC10 "N" (JsVal.vStr "5")
    { nodeId := "N", dataTypeId := 7, dataType := 7, value := JsVal.vNum 42 }
    rfl rfl (by decide) (by decide) (by decide) (by decide)

/-! ## Claim C5 -/

/-- C5 (code bug).  `switchBoolValue` on a nodeId with no monitored item is
not a silent no-op: `FindMonitoredItem` yields `undefined` (never `false`),
the guard `if(item === false) return;` does not fire, and `!item.value`
raises a TypeError — shown both on an empty monitored set and on one that
lacks the requested nodeId. -/
theorem switchBoolValue_absent_typeerror :
    switchBoolValue [] "X" = Except.error JsErr.typeError ∧
    switchBoolValue
      [{ nodeId := "Y", dataTypeId := 1, dataType := 1, value := JsVal.vBool true }]
      "X" = Except.error JsErr.typeError :=
  ⟨rfl, rfl⟩

/-! ## Claim C6 -/

/-- A sequence of `addItemToMonitor(nodeId)` calls folded over the monitored
set. -/
def runAdds (env : Session) (mon : List MonItem) (calls : List String) : List MonItem :=
  calls.foldl (fun m nodeId => (addItemToMonitor env m nodeId).1) mon

/-- C6.  For every sequence of `addItemToMonitor` calls starting from the
empty monitored set, the resulting set contains at most one entry per nodeId;
and adding a nodeId that is already monitored leaves the set unchanged while
emitting the "Item already monitored" duplicate report. -/
theorem addItemToMonitor_dedup (env : Session) (calls : List String) :
    (runAdds env [] calls).Pairwise (fun a b => a.nodeId ≠ b.nodeId) ∧
    (∀ mon nodeId it, FindMonitoredItem mon nodeId = some it →
       addItemToMonitor env mon nodeId = (mon, true)) := by
  constructor
  · have hstep : ∀ mon nodeId,
        mon.Pairwise (fun a b => a.nodeId ≠ b.nodeId) →
        ((addItemToMonitor env mon nodeId).1).Pairwise (fun a b => a.nodeId ≠ b.nodeId) := by
      intro mon nodeId hp
      simp only [addItemToMonitor, addItemToMonitorWith]
      cases hdup : FindMonitoredItem mon nodeId with
      | some it => exact hp
      | none =>
          simp only
          rw [List.pairwise_append]
          refine ⟨hp, List.pairwise_singleton _ _, ?_⟩
          intro a ha b hb
          have hb2 : b.nodeId = nodeId := by
            rcases List.mem_singleton.mp hb with rfl
            rfl
          rw [hb2]
          intro heq
          exact (FindMonitoredItem_eq_none mon nodeId).mp hdup
            (heq ▸ List.mem_map_of_mem (fun it => it.nodeId) ha)
    have hfold : ∀ (cs : List String) (mon : List MonItem),
        mon.Pairwise (fun a b => a.nodeId ≠ b.nodeId) →
        (cs.foldl (fun m nodeId => (addItemToMonitor env m nodeId).1) mon).Pairwise
          (fun a b => a.nodeId ≠ b.nodeId) := by
      intro cs
      induction cs with
      | nil => intro mon hp; exact hp
      | cons c rest ih => intro mon hp; exact ih _ (hstep mon c hp)
    exact hfold calls [] List.Pairwise.nil
  · intro mon nodeId it hfind
    simp [addItemToMonitor, addItemToMonitorWith, hfind]

def envC6 : Session :=
  { browse := fun _ => [], readDataType := fun _ => 1,
    readData := fun _ => JsVal.vBool true }

def monC6 : List MonItem :=
  [{ nodeId := "a", dataTypeId := 1, dataType := 1, value := JsVal.vBool true }]

/-- Witness: `addItemToMonitor_dedup` applied to the concrete call sequence
`["a", "b", "a"]` and to a duplicate add of `"a"` against a set already
containing it. -/
theorem addItemToMonitor_dedup_witness :
    (runAdds envC6 [] ["a", "b", "a"]).Pairwise (fun a b => a.nodeId ≠ b.nodeId) ∧
    addItemToMonitor envC6 monC6 "a" = (monC6, true) :=
  ⟨(addItemToMonitor_dedup envC6 ["a", "b", "a"]).1,
   (addItemToMonitor_dedup envC6 ["a", "b", "a"]).2 monC6 "a"
     { nodeId := "a", dataTypeId := 1, dataType := 1, value := JsVal.vBool true } rfl⟩
